import Mathlib

set_option linter.unusedVariables false

/-! Shallow embedding of mkgit.py, a single-file Python tool that provisions a
remote git repository and wires the local "origin" remote to it. Python
strings are modelled as lists of characters; every definition below is
translated from the Python function of the same (or closely similar) name. -/

abbrev Chars := List Char

/-- Convert a Lean string literal into the character-list representation. -/
def lit (s : String) : Chars := s.data

/-- Whitespace characters removed by Python str.strip. -/
def isPyWS (c : Char) : Bool := c == ' ' || c == '\t' || c == '\n' || c == '\r'

/-- Python str.strip: remove whitespace from both ends. -/
def pyStrip (s : Chars) : Chars :=
  ((s.dropWhile isPyWS).reverse.dropWhile isPyWS).reverse

/-- Split a string at newline characters, keeping empty pieces, as Python
str.split with a newline separator does. Used for both the splitlines call in
get_current_branch (where trailing empty pieces are never matched by the
branch scan) and the split call in get_description. -/
def splitNL : Chars → List Chars
  | [] => [[]]
  | c :: cs =>
    if c = '\n' then [] :: splitNL cs
    else
      match splitNL cs with
      | [] => [[c]]
      | l :: ls => (c :: l) :: ls

/-- Python str.startswith. -/
def startsWithChars (l pre : Chars) : Bool := decide (l.take pre.length = pre)

/-- Python str.endswith. -/
def endsWithChars (l suf : Chars) : Bool :=
  decide (l.reverse.take suf.length = suf.reverse)

/-- Python str.replace removing every occurrence of ".git" (left to right,
non-overlapping), as in the repo-name fields sent to the SaaS APIs. -/
def replaceDotGit : Chars → Chars
  | [] => []
  | c :: cs =>
    if c = '.' ∧ cs.take 3 = lit "git" then replaceDotGit (cs.drop 3)
    else c :: replaceDotGit cs
termination_by l => l.length
decreasing_by
  all_goals simp [List.length_drop]
  all_goals omega

/-- Python f-string rendering of an Optional value: None prints as "None". -/
def optStr : Option Chars → Chars
  | none => lit "None"
  | some s => s

/-- URLParser.parse_repo_name: normalize a repository name to end in ".git".
A falsy (absent or empty) name yields None. This function is defined in the
source but never called by any other function. -/
def parse_repo_name : Option Chars → Option Chars
  | none => none
  | some s =>
    if s = [] then none
    else if endsWithChars s (lit ".git") then some s
    else some (s ++ lit ".git")

/-- Split a string around its last slash character: some (before, after)
when a slash exists, none otherwise. -/
def splitLastSlash : Chars → Option (Chars × Chars)
  | [] => none
  | c :: cs =>
    match splitLastSlash cs with
    | some (p, s) => some (c :: p, s)
    | none => if c = '/' then some ([], cs) else none

/-- URLParser.parse_ssh_url. The three Python regexes amount to: the URL must
begin with the literal scheme, the host is the run of non-slash characters
after it, the parent path is everything from the first slash after the host
up to (excluding) the last slash and must be non-empty, and the final segment
must either end in ".git" or contain no dot (in which case ".git" is
appended). Any mismatch makes the Python call fail, modelled as none. -/
def parse_ssh_url (url : Chars) : Option (Chars × Chars × Chars) :=
  if url.take 6 = lit "ssh://" then
    let rest0 := url.drop 6
    let host := rest0.takeWhile (fun c => c != '/')
    let rest := rest0.dropWhile (fun c => c != '/')
    match splitLastSlash rest with
    | none => none
    | some (parent, seg) =>
      if parent = [] then none
      else if endsWithChars seg (lit ".git") then some (host, parent, seg)
      else if seg.contains '.' then none
      else some (host, parent, seg ++ lit ".git")
  else none

/-- The site-spec regex of URLParser.parse_site_arguments: the token must be
exactly "github" or "gitlab", optionally followed by one or two dash-led
suffix segments, each non-empty and dash-free. Returns the service name and
the two optional capture groups, none on mismatch. -/
def matchSiteRegex (site : Chars) : Option (Chars × Option Chars × Option Chars) :=
  let svc := site.take 6
  if svc = lit "github" ∨ svc = lit "gitlab" then
    match site.drop 6 with
    | [] => some (svc, none, none)
    | c :: r1 =>
      if c = '-' then
        let g2 := r1.takeWhile (fun ch => ch != '-')
        match r1.dropWhile (fun ch => ch != '-') with
        | [] => if g2 = [] then none else some (svc, some g2, none)
        | _ :: g3 =>
          if g2 = [] then none
          else if g3 ≠ [] ∧ g3.contains '-' = false then some (svc, some g2, some g3)
          else none
      else none
  else none

/-- Result of URLParser.parse_site_arguments, covering the Python return
values and both non-returning exits: sshBad models the fail call raised from
parse_ssh_url, crash models the trailing assert False. -/
inductive SiteParse where
  | noSite
  | service (svc : Chars) (host : Chars) (org : Option Chars)
  | sshSite (host parent repoName : Chars)
  | custom (siteName : Chars)
  | sshBad (url : Chars)
  | crash (site : Chars)
deriving DecidableEq

/-- URLParser.parse_site_arguments. Note the faithful quirks: the GitHub
branch takes the organization from the third regex group (so a single suffix
segment is ignored), and a token that begins with a service name but fails
the regex falls through every branch onto the assert False. The final else
in the service dispatch is unreachable because the regex alternation only
produces the two service names. -/
def parse_site_arguments (siteArg : Option Chars) : SiteParse :=
  match siteArg with
  | none => SiteParse.noSite
  | some site =>
    if site = [] then SiteParse.noSite
    else if startsWithChars site (lit "github") || startsWithChars site (lit "gitlab") then
      match matchSiteRegex site with
      | some (svc, g2, g3) =>
        if svc = lit "github" then
          SiteParse.service (lit "github") (lit "github.com") g3
        else if svc = lit "gitlab" then
          match g3 with
          | some o => SiteParse.service (lit "gitlab") (g2.getD []) (some o)
          | none =>
            match g2 with
            | some h2 =>
              if h2.contains '.' then SiteParse.service (lit "gitlab") h2 none
              else SiteParse.service (lit "gitlab") (lit "gitlab.com") (some h2)
            | none => SiteParse.service (lit "gitlab") (lit "gitlab.com") none
        else SiteParse.crash site
      | none => SiteParse.crash site
    else if startsWithChars site (lit "ssh://") then
      match parse_ssh_url site with
      | some (h, p, r) => SiteParse.sshSite h p r
      | none => SiteParse.sshBad site
    else SiteParse.custom site

/-- Replace the binding of a key in the variable table (Python dict
assignment: a later line for the same key overwrites the earlier one). -/
def updateVar (k v : Chars) (d : List (Chars × Chars)) : List (Chars × Chars) :=
  d.filter (fun pr => !(pr.1 == k)) ++ [(k, v)]

/-- Python dict .get on the variable table. -/
def lookupVar (k : Chars) (d : List (Chars × Chars)) : Option Chars :=
  (d.find? (fun pr => pr.1 == k)).map (fun pr => pr.2)

/-- The line loop of SiteConfiguration.load_site_config: strip each line,
keep the ones that are non-empty, contain an equals sign, and do not start
with a hash; split at the first equals sign and store the stripped key and
value. Unrecognized keys are stored like any other and simply never looked
up afterwards. -/
def parseFragmentLines (lines : List Chars) : List (Chars × Chars) :=
  lines.foldl
    (fun d line =>
      let l := pyStrip line
      if l ≠ [] ∧ l.contains '=' ∧ startsWithChars l (lit "#") = false then
        let v := l.takeWhile (fun ch => ch != '=')
        let val := l.drop (v.length + 1)
        updateVar (pyStrip v) (pyStrip val) d
      else d)
    []

/-- The dictionary returned by load_site_config. -/
structure SiteConfigData where
  host : Option Chars
  parentPath : Chars
  repoLink : Option Chars
deriving DecidableEq

/-- SiteConfiguration.load_site_config: none on the input means the fragment
file mkgit-(site) could not be located in any search directory (the fail
"unknown site script" path, modelled as none here and mapped to the failure
by the caller). GITHOST is looked up as is, PARENT defaults to the empty
string, REPOLINK to absent. -/
def load_site_config (fragLines : Option (List Chars)) : Option SiteConfigData :=
  match fragLines with
  | none => none
  | some lines =>
    let vars := parseFragmentLines lines
    some { host := lookupVar (lit "GITHOST") vars
           parentPath := (lookupVar (lit "PARENT") vars).getD []
           repoLink := lookupVar (lit "REPOLINK") vars }

/-- The RepositoryConfig dataclass. Fields keep their Python defaults. -/
structure RepositoryConfig where
  targetType : Chars
  targetHost : Chars
  org : Option Chars := none
  parentPath : Option Chars := none
  repoLink : Option Chars := none
  repoName : Option Chars := none
deriving DecidableEq

/-- Observable side effects of one run: local git subprocesses, fragment
file reads, credential file reads and writes, interactive password prompts,
HTTPS POST requests (the payload abstracts the JSON body's repository or
organization name field), and remote-shell invocations. -/
inductive Eff where
  | gitCmd (args : List Chars)
  | fragRead (name : Chars)
  | credRead (name : Chars)
  | promptPassword
  | tokenWrite (name : Chars)
  | httpPost (host path payload : Chars)
  | sshExec (host : Chars)
deriving DecidableEq

/-- Outcome of RepositoryConfig.from_args: a config, a fail call, or an
uncaught AssertionError. -/
inductive ConfigResult where
  | ok (cfg : RepositoryConfig)
  | failed (msg : Chars)
  | crashed (msg : Chars)
deriving DecidableEq

/-- Outcome of a step or of the whole run: success, a fail call (printed
diagnostic plus exit status 1), or an uncaught AssertionError. -/
inductive Outcome (α : Type) where
  | ok (a : α)
  | failed (msg : Chars)
  | crashed (msg : Chars)
deriving DecidableEq

/-- The positional-argument branch of RepositoryConfig.from_args: a truthy
repo argument beginning with the ssh scheme is parsed as an SSH URL,
anything else is the "no target site specified" failure. -/
def from_repo_arg (repoArg : Option Chars) : List Eff × ConfigResult :=
  match repoArg with
  | some r =>
    if r ≠ [] ∧ startsWithChars r (lit "ssh://") = true then
      match parse_ssh_url r with
      | some (h, p, rn) =>
        ([], ConfigResult.ok { targetType := lit "ssh", targetHost := h,
                               parentPath := some p, repoName := some rn })
      | none => ([], ConfigResult.failed (lit "bad SSH URL"))
    else ([], ConfigResult.failed (lit "no target site specified"))
  | none => ([], ConfigResult.failed (lit "no target site specified"))

/-- RepositoryConfig.from_args together with _parse_site_arguments and
_parse_ssh_url. The frag argument supplies the contents of the fragment
file mkgit-(name), none when it cannot be located. Note that the repo_name
field is only ever set on the two SSH-URL paths: the service and custom
branches leave it at its None default, and the positional repo argument is
otherwise ignored. -/
def from_args (frag : Chars → Option (List Chars)) (site repoArg : Option Chars) :
    List Eff × ConfigResult :=
  match site with
  | some s =>
    if s ≠ [] then
      match parse_site_arguments (some s) with
      | SiteParse.noSite => ([], ConfigResult.failed (lit "no site specified"))
      | SiteParse.service svc host org =>
        ([], ConfigResult.ok { targetType := svc, targetHost := host, org := org })
      | SiteParse.sshSite h p r =>
        ([], ConfigResult.ok { targetType := lit "ssh", targetHost := h,
                               parentPath := some p, repoName := some r })
      | SiteParse.sshBad _ => ([], ConfigResult.failed (lit "bad SSH URL"))
      | SiteParse.crash _ =>
        ([], ConfigResult.crashed (lit "Unhandled site argument format"))
      | SiteParse.custom name =>
        match load_site_config (frag name) with
        | none => ([Eff.fragRead name], ConfigResult.failed (lit "unknown site script"))
        | some sc =>
          match sc.host with
          | none =>
            ([Eff.fragRead name], ConfigResult.failed (lit "site script must set GITHOST"))
          | some h =>
            if h = [] then
              ([Eff.fragRead name], ConfigResult.failed (lit "site script must set GITHOST"))
            else
              ([Eff.fragRead name],
               ConfigResult.ok { targetType := lit "custom", targetHost := h,
                                 parentPath := some sc.parentPath,
                                 repoLink := sc.repoLink })
    else from_repo_arg repoArg
  | none => from_repo_arg repoArg

/-- Parsed command-line arguments of one invocation (the list-sites flag,
which short-circuits before any of the modelled pipeline, is omitted). -/
structure Args where
  site : Option Chars
  repo : Option Chars
  descr : Option Chars
  fork : Bool
  priv : Bool

/-- Deterministic external world of one run: whether the chosen directory is
a git working copy, the exit status and standard output of each git
invocation, the contents of each one-line credential file (none covers both
a missing file and an unreadable or multi-line one, all of which make
read_oneliner fail), the lines of each site fragment file (none when it
cannot be located), the HTTP status returned for a POST to a host and path,
the human-readable message extracted from an error response body
(abstracting the JSON parsing in the _handle_api_error helpers), the
private_token field of a GitLab session response, and the exit status of the
remote-shell invocation. -/
structure Env where
  gitDirOk : Bool
  git : List Chars → Nat × Chars
  file : Chars → Option Chars
  frag : Chars → Option (List Chars)
  http : Chars → Chars → Nat
  apiMsg : Chars
  sessionToken : Option Chars
  sshStatus : Nat

/-- Scan of the output of the git branch command for the line marked with an
asterisk, as in GitOperations.get_current_branch. -/
def findBranchLine : List Chars → Option Chars
  | [] => none
  | l :: ls =>
    if startsWithChars l (lit "* ") then some (l.drop 2) else findBranchLine ls

/-- GitOperations.get_current_branch: run git branch, pick the current
branch line, and reject any branch that is neither master nor main. -/
def get_current_branch (env : Env) : List Eff × Outcome Chars :=
  let r := env.git [lit "branch"]
  ([Eff.gitCmd [lit "branch"]],
   if r.1 ≠ 0 then Outcome.failed (lit "could not get current branch")
   else
     match findBranchLine (splitNL r.2) with
     | none => Outcome.failed (lit "could not determine current branch")
     | some b =>
       if b = lit "master" ∨ b = lit "main" then Outcome.ok b
       else Outcome.failed (lit "invalid main branch"))

/-- Last element of a split, Python index -1. -/
def lastLine (ls : List Chars) : Chars := ls.getLast?.getD []

/-- The try block of GitOperations.get_description: take the tip commit
subject from git log, with every failure (including the bare except
swallowing the exit raised by a failing get_current_branch) falling back to
the literal Repository. -/
def get_description_computed (env : Env) : List Eff × Chars :=
  match get_current_branch env with
  | (effs, Outcome.ok b) =>
    (effs ++ [Eff.gitCmd [lit "log", lit "--pretty=%s", b]],
     if (env.git [lit "log", lit "--pretty=%s", b]).1 = 0 ∧
        pyStrip (env.git [lit "log", lit "--pretty=%s", b]).2 ≠ [] then
       if lastLine (splitNL (pyStrip (env.git [lit "log", lit "--pretty=%s", b]).2)) ≠ [] then
         lastLine (splitNL (pyStrip (env.git [lit "log", lit "--pretty=%s", b]).2))
       else lit "Repository"
     else lit "Repository")
  | (effs, _) => (effs, lit "Repository")

/-- GitOperations.get_description: a truthy override is returned as is;
otherwise the computed fallback above. -/
def get_description (env : Env) (dflt : Option Chars) : List Eff × Chars :=
  match dflt with
  | some d => if d ≠ [] then ([], d) else get_description_computed env
  | none => get_description_computed env

/-- The git invocations performed by GitOperations.setup_remote: query the
existing origin URL, remove the origin remote when the query succeeds, then
add origin with the new URL. -/
def setup_remote_effs (env : Env) (url : Chars) : List Eff :=
  if (env.git [lit "remote", lit "get-url", lit "origin"]).1 = 0 then
    [Eff.gitCmd [lit "remote", lit "get-url", lit "origin"],
     Eff.gitCmd [lit "remote", lit "rm", lit "origin"],
     Eff.gitCmd [lit "remote", lit "add", lit "origin", url]]
  else
    [Eff.gitCmd [lit "remote", lit "get-url", lit "origin"],
     Eff.gitCmd [lit "remote", lit "add", lit "origin", url]]

/-- GitOperations.push_to_remote: push the branch with upstream tracking,
failing on a non-zero exit. -/
def push_to_remote (env : Env) (branch : Chars) : List Eff × Outcome Unit :=
  let args := [lit "push", lit "-u", lit "origin", branch]
  ([Eff.gitCmd args],
   if (env.git args).1 = 0 then Outcome.ok () else Outcome.failed (lit "push to origin failed"))

/-- AuthHandler.get_github_credentials: both fixed files must exist and hold
one line each; the token file is only touched once the user file was read. -/
def get_github_credentials (env : Env) : List Eff × Outcome (Chars × Chars) :=
  match env.file (lit ".githubuser") with
  | none => ([Eff.credRead (lit ".githubuser")], Outcome.failed (lit "need .githubuser"))
  | some u =>
    match env.file (lit ".github-oauthtoken") with
    | none =>
      ([Eff.credRead (lit ".githubuser"), Eff.credRead (lit ".github-oauthtoken")],
       Outcome.failed (lit "need .github-oauthtoken"))
    | some t =>
      ([Eff.credRead (lit ".githubuser"), Eff.credRead (lit ".github-oauthtoken")],
       Outcome.ok (u, t))

/-- AuthHandler._get_or_create_gitlab_token. The cache argument is the
current content of the per-host token file (initially as on disk, updated
once a token is minted); when absent, the handler prompts for a password,
posts to the session endpoint, and persists the extracted token. Returns
the token together with the new token-file content. -/
def get_or_create_gitlab_token (env : Env) (host : Chars) (cache : Option Chars) :
    List Eff × Outcome (Chars × Option Chars) :=
  let tokenFile := lit ".gitlab-token-" ++ host
  match cache with
  | some t => ([Eff.credRead tokenFile], Outcome.ok (t, some t))
  | none =>
    let effs := [Eff.promptPassword, Eff.httpPost host (lit "/api/v4/session") []]
    if env.http host (lit "/api/v4/session") = 201 then
      match env.sessionToken with
      | some tk => (effs ++ [Eff.tokenWrite tokenFile], Outcome.ok (tk, some tk))
      | none => (effs, Outcome.failed (lit "no private token in response"))
    else (effs, Outcome.failed (lit "GitLab authentication failed"))

/-- AuthHandler.get_gitlab_credentials: per-host user file plus the token
logic above. -/
def get_gitlab_credentials (env : Env) (host : Chars) (cache : Option Chars) :
    List Eff × Outcome (Chars × Chars × Option Chars) :=
  let userFile := lit ".gitlabuser-" ++ host
  match env.file userFile with
  | none => ([Eff.credRead userFile], Outcome.failed (lit "need gitlab user file"))
  | some u =>
    match get_or_create_gitlab_token env host cache with
    | (effs, Outcome.ok (t, cache2)) =>
      (Eff.credRead userFile :: effs, Outcome.ok (u, t, cache2))
    | (effs, Outcome.failed m) => (Eff.credRead userFile :: effs, Outcome.failed m)
    | (effs, Outcome.crashed m) => (Eff.credRead userFile :: effs, Outcome.crashed m)

/-- The name field of the GitHub and GitLab creation request bodies: the
configured repo name with every ".git" occurrence removed, or the empty
string when the name was never set. -/
def api_request_name (cfg : RepositoryConfig) : Chars :=
  match cfg.repoName with
  | some r => replaceDotGit r
  | none => []

/-- GitHubService.create_repository: read credentials, POST the creation
request to the user or organization endpoint, succeed exactly on 201. -/
def github_create_repository (env : Env) (cfg : RepositoryConfig) : List Eff × Outcome Unit :=
  match get_github_credentials env with
  | (effs, Outcome.ok _) =>
    let path :=
      match cfg.org with
      | some o => lit "/orgs/" ++ o ++ lit "/repos"
      | none => lit "/user/repos"
    let effs2 := effs ++ [Eff.httpPost (lit "api.github.com") path (api_request_name cfg)]
    if env.http (lit "api.github.com") path = 201 then (effs2, Outcome.ok ())
    else (effs2, Outcome.failed (lit "GitHub API error: " ++ env.apiMsg))
  | (effs, Outcome.failed m) => (effs, Outcome.failed m)
  | (effs, Outcome.crashed m) => (effs, Outcome.crashed m)

/-- GitHubService.get_repository_url: credentials are read again; a falsy
org falls back to the user; an unset repo name renders as the Python string
None inside the f-string. -/
def github_get_repository_url (env : Env) (cfg : RepositoryConfig) : List Eff × Outcome Chars :=
  match get_github_credentials env with
  | (effs, Outcome.ok (u, _)) =>
    let ghOrg :=
      match cfg.org with
      | some o => if o ≠ [] then o else u
      | none => u
    (effs, Outcome.ok (lit "ssh://git@github.com/" ++ ghOrg ++ lit "/" ++ optStr cfg.repoName))
  | (effs, Outcome.failed m) => (effs, Outcome.failed m)
  | (effs, Outcome.crashed m) => (effs, Outcome.crashed m)

/-- The origin-URL pattern accepted by GitHubService.fork_repository: an
https GitHub URL whose path has an owner segment and a repository segment,
the latter allowing one optional ".git" suffix and one optional trailing
slash. -/
def parse_github_origin (url : Chars) : Option (Chars × Chars) :=
  let s := pyStrip url
  if startsWithChars s (lit "https://github.com/") then
    let r := s.drop 19
    let owner := r.takeWhile (fun c => c != '/')
    if owner = [] then none
    else
      match r.dropWhile (fun c => c != '/') with
      | [] => none
      | _ :: rest =>
        let rest1 := if endsWithChars rest (lit "/") then rest.take (rest.length - 1) else rest
        let rest2 :=
          if endsWithChars rest1 (lit ".git") ∧ rest1.length > 4 then
            rest1.take (rest1.length - 4)
          else rest1
        if rest2 ≠ [] ∧ rest2.contains '/' = false then some (owner, rest2) else none
  else none

/-- GitHubService.fork_repository: read credentials, read the existing
origin URL, require it to be a GitHub https URL, POST the fork request and
require 202; the fork organization defaults to user-upstream. -/
def github_fork_repository (env : Env) (cfg : RepositoryConfig) : List Eff × Outcome Chars :=
  match get_github_credentials env with
  | (effs, Outcome.ok (u, _)) =>
    let getUrlArgs := [lit "remote", lit "get-url", lit "origin"]
    let r := env.git getUrlArgs
    let effs2 := effs ++ [Eff.gitCmd getUrlArgs]
    if r.1 ≠ 0 then (effs2, Outcome.failed (lit "could not get origin URL"))
    else
      match parse_github_origin r.2 with
      | none => (effs2, Outcome.failed (lit "origin must be a GitHub repository"))
      | some (owner, repo) =>
        let sourceRepo := replaceDotGit repo
        let forkOrg :=
          match cfg.org with
          | some o => if o ≠ [] then o else u ++ lit "-upstream"
          | none => u ++ lit "-upstream"
        let path := lit "/repos/" ++ owner ++ lit "/" ++ sourceRepo ++ lit "/forks"
        let effs3 := effs2 ++ [Eff.httpPost (lit "api.github.com") path forkOrg]
        if env.http (lit "api.github.com") path = 202 then
          (effs3, Outcome.ok (lit "ssh://git@github.com/" ++ forkOrg ++ lit "/" ++
                              sourceRepo ++ lit ".git"))
        else (effs3, Outcome.failed (lit "GitHub API error: " ++ env.apiMsg))
  | (effs, Outcome.failed m) => (effs, Outcome.failed m)
  | (effs, Outcome.crashed m) => (effs, Outcome.crashed m)

/-- GitLabService.create_repository: per-host credentials (threading the
token-file content), POST to the projects endpoint, succeed exactly on 201.
Returns the updated token-file content. -/
def gitlab_create_repository (env : Env) (cfg : RepositoryConfig) (cache : Option Chars) :
    List Eff × Outcome (Option Chars) :=
  match get_gitlab_credentials env cfg.targetHost cache with
  | (effs, Outcome.ok (_, _, cache2)) =>
    let path := lit "/api/v4/projects"
    let effs2 := effs ++ [Eff.httpPost cfg.targetHost path (api_request_name cfg)]
    if env.http cfg.targetHost path = 201 then (effs2, Outcome.ok cache2)
    else (effs2, Outcome.failed (lit "GitLab API error: " ++ env.apiMsg))
  | (effs, Outcome.failed m) => (effs, Outcome.failed m)
  | (effs, Outcome.crashed m) => (effs, Outcome.crashed m)

/-- GitLabService.get_repository_url: credentials are read again; an unset
repo name renders as the Python string None. -/
def gitlab_get_repository_url (env : Env) (cfg : RepositoryConfig) (cache : Option Chars) :
    List Eff × Outcome Chars :=
  match get_gitlab_credentials env cfg.targetHost cache with
  | (effs, Outcome.ok (u, _, _)) =>
    (effs, Outcome.ok (lit "ssh://git@" ++ cfg.targetHost ++ lit "/" ++ u ++ lit "/" ++
                       optStr cfg.repoName))
  | (effs, Outcome.failed m) => (effs, Outcome.failed m)
  | (effs, Outcome.crashed m) => (effs, Outcome.crashed m)

/-- SSHService.create_repository: the two entry assertions on parent_path
and repo_name (an unset field raises AssertionError, modelled as crashed),
the host check, and one remote-shell invocation whose script content (built
via shell_escape) is abstracted away; a non-zero remote exit is a failure. -/
def ssh_create_repository (env : Env) (cfg : RepositoryConfig) : List Eff × Outcome Unit :=
  match cfg.parentPath with
  | none => ([], Outcome.crashed (lit "SSH parent_path is required"))
  | some _ =>
    match cfg.repoName with
    | none => ([], Outcome.crashed (lit "SSH repo_name is required"))
    | some _ =>
      if cfg.targetHost = [] then ([], Outcome.failed (lit "SSH host is required"))
      else
        ([Eff.sshExec cfg.targetHost],
         if env.sshStatus = 0 then Outcome.ok ()
         else Outcome.failed (lit "SSH to host failed"))

/-- SSHService.get_repository_url: reassemble the URL from host, parent
path and repo name (unset optional fields render as the string None). -/
def ssh_get_repository_url (cfg : RepositoryConfig) : Chars :=
  lit "ssh://" ++ cfg.targetHost ++ optStr cfg.parentPath ++ lit "/" ++ optStr cfg.repoName

/-- ServiceFactory.create_service succeeds exactly for these target types. -/
def validTargetType (t : Chars) : Bool :=
  t == lit "github" || t == lit "gitlab" || t == lit "ssh" || t == lit "custom"

/-- The non-fork provisioning arm of main: create_repository followed by
get_repository_url on the service selected by the target type (the caller
has already checked validTargetType, so the final arm handles ssh and
custom). -/
def provisionCreate (env : Env) (cfg : RepositoryConfig) : List Eff × Outcome Chars :=
  if cfg.targetType = lit "github" then
    match github_create_repository env cfg with
    | (e1, Outcome.ok _) =>
      match github_get_repository_url env cfg with
      | (e2, r) => (e1 ++ e2, r)
    | (e1, Outcome.failed m) => (e1, Outcome.failed m)
    | (e1, Outcome.crashed m) => (e1, Outcome.crashed m)
  else if cfg.targetType = lit "gitlab" then
    let cache0 := env.file (lit ".gitlab-token-" ++ cfg.targetHost)
    match gitlab_create_repository env cfg cache0 with
    | (e1, Outcome.ok cache1) =>
      match gitlab_get_repository_url env cfg cache1 with
      | (e2, r) => (e1 ++ e2, r)
    | (e1, Outcome.failed m) => (e1, Outcome.failed m)
    | (e1, Outcome.crashed m) => (e1, Outcome.crashed m)
  else
    match ssh_create_repository env cfg with
    | (e1, Outcome.ok _) => (e1, Outcome.ok (ssh_get_repository_url cfg))
    | (e1, Outcome.failed m) => (e1, Outcome.failed m)
    | (e1, Outcome.crashed m) => (e1, Outcome.crashed m)

/-- The tail of main after a repository URL has been obtained: wire the
origin remote and push the current branch; success prints the URL. -/
def mainFinish (env : Env) (es : List Eff) (branch url : Chars) : List Eff × Outcome Chars :=
  let e5 := setup_remote_effs env url
  match push_to_remote env branch with
  | (e6, Outcome.ok _) => (es ++ e5 ++ e6, Outcome.ok url)
  | (e6, Outcome.failed m) => (es ++ e5 ++ e6, Outcome.failed m)
  | (e6, Outcome.crashed m) => (es ++ e5 ++ e6, Outcome.crashed m)

/-- The main function (after argument parsing and ignoring the list-sites
shortcut): validate the working directory, resolve the RepositoryConfig,
validate the current branch, compute the description, build the service,
reject a fork for anything but GitHub, provision (or fork), then wire the
remote and push. The pair collects the effect trace and the final outcome. -/
def runMain (env : Env) (a : Args) : List Eff × Outcome Chars :=
  if env.gitDirOk = false then ([], Outcome.failed (lit "not a git working directory"))
  else
    match from_args env.frag a.site a.repo with
    | (e1, ConfigResult.failed m) => (e1, Outcome.failed m)
    | (e1, ConfigResult.crashed m) => (e1, Outcome.crashed m)
    | (e1, ConfigResult.ok cfg) =>
      match get_current_branch env with
      | (e2, Outcome.failed m) => (e1 ++ e2, Outcome.failed m)
      | (e2, Outcome.crashed m) => (e1 ++ e2, Outcome.crashed m)
      | (e2, Outcome.ok branch) =>
        match get_description env a.descr with
        | (e3, descr) =>
          if validTargetType cfg.targetType = false then
            (e1 ++ e2 ++ e3, Outcome.failed (lit "unknown target type"))
          else if a.fork then
            if cfg.targetType ≠ lit "github" then
              (e1 ++ e2 ++ e3, Outcome.failed (lit "forking only supported for GitHub"))
            else
              match github_fork_repository env cfg with
              | (e4, Outcome.ok url) => mainFinish env (e1 ++ e2 ++ e3 ++ e4) branch url
              | (e4, Outcome.failed m) => (e1 ++ e2 ++ e3 ++ e4, Outcome.failed m)
              | (e4, Outcome.crashed m) => (e1 ++ e2 ++ e3 ++ e4, Outcome.crashed m)
          else
            match provisionCreate env cfg with
            | (e4, Outcome.ok url) => mainFinish env (e1 ++ e2 ++ e3 ++ e4) branch url
            | (e4, Outcome.failed m) => (e1 ++ e2 ++ e3 ++ e4, Outcome.failed m)
            | (e4, Outcome.crashed m) => (e1 ++ e2 ++ e3 ++ e4, Outcome.crashed m)

/-- The remote table of a working copy, modelled as an association list of
remote name and URL pairs (git itself keeps at most one entry per name, but
no such assumption is needed). -/
abbrev RemoteTable := List (Chars × Chars)

/-- Semantics of git remote get-url: the first entry for the name. -/
def git_remote_get_url (name : Chars) (rs : RemoteTable) : Option Chars :=
  (rs.find? (fun pr => pr.1 == name)).map (fun pr => pr.2)

/-- Semantics of git remote rm: drop every entry for the name. -/
def git_remote_rm (name : Chars) (rs : RemoteTable) : RemoteTable :=
  rs.filter (fun pr => !(pr.1 == name))

/-- Semantics of git remote add: append an entry. -/
def git_remote_add (name url : Chars) (rs : RemoteTable) : RemoteTable :=
  rs ++ [(name, url)]

/-- GitOperations.setup_remote acting on the remote table: when an origin
remote exists it is removed (never merged) and then origin is added with
the newly resolved URL; otherwise origin is simply added. -/
def setup_remote (url : Chars) (rs : RemoteTable) : RemoteTable :=
  match git_remote_get_url (lit "origin") rs with
  | some _ => git_remote_add (lit "origin") url (git_remote_rm (lit "origin") rs)
  | none => git_remote_add (lit "origin") url rs

/-- An effect is a network request. -/
def isHttp : Eff → Bool
  | Eff.httpPost _ _ _ => true
  | _ => false

/-- An effect touches credentials (file read or write, or the interactive
password prompt). -/
def isCred : Eff → Bool
  | Eff.credRead _ => true
  | Eff.promptPassword => true
  | Eff.tokenWrite _ => true
  | _ => false

/-- An effect is a remote-shell invocation. -/
def isShell : Eff → Bool
  | Eff.sshExec _ => true
  | _ => false

/-- An effect is a network request or a remote-shell invocation. -/
def isNetOrShell (e : Eff) : Bool := isHttp e || isShell e

/-- Git responses where every invocation succeeds and the branch listing
names main as current. -/
def gitOkMain : List Chars → Nat × Chars := fun args =>
  if args = [lit "branch"] then (0, lit "* main\n") else (0, [])

/-- A benign world: valid working copy, all git calls succeed on branch
main, no credential files, no fragments, all HTTP posts rejected, remote
shell succeeds. -/
def envSsh : Env :=
  { gitDirOk := true, git := gitOkMain, file := fun _ => none, frag := fun _ => none,
    http := fun _ _ => 0, apiMsg := [], sessionToken := none, sshStatus := 0 }

/-- Invocation with an explicit ssh URL site spec. -/
def argsSsh : Args :=
  { site := some (lit "ssh://h/p/r"), repo := none, descr := some (lit "d"),
    fork := false, priv := false }

/-- World with GitHub credential files present and the user-repos creation
endpoint answering 201. -/
def envHub : Env :=
  { gitDirOk := true, git := gitOkMain,
    file := fun n =>
      if n = lit ".githubuser" then some (lit "user")
      else if n = lit ".github-oauthtoken" then some (lit "tok")
      else none,
    frag := fun _ => none,
    http := fun h p => if h = lit "api.github.com" ∧ p = lit "/user/repos" then 201 else 0,
    apiMsg := [], sessionToken := none, sshStatus := 0 }

/-- The scenario of the spec: site spec github-acme, positional repository
name widget supplied, run in a git working copy. -/
def argsHub : Args :=
  { site := some (lit "github-acme"), repo := some (lit "widget"),
    descr := some (lit "d"), fork := false, priv := false }

/-- World where the fragment file mkgit-mysite exists and sets GITHOST. -/
def envCustom : Env :=
  { gitDirOk := true, git := gitOkMain, file := fun _ => none,
    frag := fun n => if n = lit "mysite" then some [lit "GITHOST=h.example"] else none,
    http := fun _ _ => 0, apiMsg := [], sessionToken := none, sshStatus := 0 }

/-- Invocation selecting the configured remote-shell site mysite. -/
def argsCustom : Args :=
  { site := some (lit "mysite"), repo := none, descr := some (lit "d"),
    fork := false, priv := false }

/-- Invocation requesting a fork against the GitLab site spec. -/
def argsLabFork : Args :=
  { site := some (lit "gitlab"), repo := none, descr := some (lit "d"),
    fork := true, priv := false }

/-- Invocation selecting the unlocatable fragment site mysite. -/
def argsNoFrag : Args :=
  { site := some (lit "mysite"), repo := none, descr := some (lit "d"),
    fork := false, priv := false }

/-- The configuration resolved from the explicit URL site spec of argsSsh. -/
def cfgSsh : RepositoryConfig :=
  { targetType := lit "ssh", targetHost := lit "h",
    parentPath := some (lit "/p"), repoName := some (lit "r.git") }

/-- The configuration resolved from the GitLab site spec of argsLabFork. -/
def cfgLab : RepositoryConfig :=
  { targetType := lit "gitlab", targetHost := lit "gitlab.com" }

/-- A list whose contains check fails holds no occurrence of the character. -/
theorem contains_false_not_mem {l : Chars} {a : Char} (h : l.contains a = false) : a ∉ l := by
  simpa using h

/-- Splitting takeWhile and dropWhile over an append whose left part
satisfies the predicate throughout and whose right part starts with a
failing character. -/
theorem takeWhile_append_cons (p : Char → Bool) (l t : Chars) (c : Char)
    (hl : ∀ x ∈ l, p x = true) (hc : p c = false) :
    (l ++ c :: t).takeWhile p = l ∧ (l ++ c :: t).dropWhile p = c :: t := by
  induction l with
  | nil => simp [List.takeWhile, List.dropWhile, hc]
  | cons x xs ih =>
    have hx : p x = true := hl x (by simp)
    have ihh := ih (fun y hy => hl y (by simp [hy]))
    simp [List.takeWhile, List.dropWhile, hx, ihh.1, ihh.2]

/-- splitLastSlash finds nothing in a slash-free string. -/
theorem splitLastSlash_of_no_slash (t : Chars) (h : ∀ c ∈ t, c ≠ '/') :
    splitLastSlash t = none := by
  induction t with
  | nil => rfl
  | cons c cs ih =>
    have hcs := ih (fun y hy => h y (by simp [hy]))
    have hc : c ≠ '/' := h c (by simp)
    simp [splitLastSlash, hcs, hc]

/-- splitLastSlash splits exactly at the final slash when the tail is
slash-free. -/
theorem splitLastSlash_append (p t : Chars) (h : ∀ c ∈ t, c ≠ '/') :
    splitLastSlash (p ++ '/' :: t) = some (p, t) := by
  induction p with
  | nil => simp [splitLastSlash, splitLastSlash_of_no_slash t h]
  | cons c cs ih => simp [splitLastSlash, ih]

/-- A string ending in ".git" contains a dot. -/
theorem endsWith_dotgit_contains_dot {r : Chars} (h : endsWithChars r (lit ".git") = true) :
    r.contains '.' = true := by
  unfold endsWithChars at h
  have h2 := of_decide_eq_true h
  have hm : '.' ∈ r.reverse.take (lit ".git").length := by
    rw [h2]; decide
  have : '.' ∈ r := List.mem_reverse.mp (List.mem_of_mem_take hm)
  simpa using this

/-- Every effect of from_args is a fragment read. -/
theorem from_args_effs (frag : Chars → Option (List Chars)) (site repoArg : Option Chars) :
    ∀ e ∈ (from_args frag site repoArg).1, ∃ n, e = Eff.fragRead n := by
  intro e he
  unfold from_args from_repo_arg at he
  repeat' split at he
  all_goals simp_all

/-- get_current_branch performs exactly one git invocation. -/
theorem get_current_branch_effs (env : Env) :
    (get_current_branch env).1 = [Eff.gitCmd [lit "branch"]] := rfl

/-- get_current_branch never raises an assertion. -/
theorem get_current_branch_not_crashed (env : Env) (m : Chars) :
    (get_current_branch env).2 ≠ Outcome.crashed m := by
  intro h
  unfold get_current_branch at h
  simp at h
  repeat' split at h
  all_goals simp_all

/-- Every effect of the computed description is a git invocation. -/
theorem get_description_computed_effs (env : Env) :
    ∀ e ∈ (get_description_computed env).1, ∃ a, e = Eff.gitCmd a := by
  intro e he
  unfold get_description_computed at he
  rcases hgc : get_current_branch env with ⟨effs, r⟩
  have heffs : effs = [Eff.gitCmd [lit "branch"]] := by
    have h1 := get_current_branch_effs env
    rw [hgc] at h1
    exact h1
  rw [hgc] at he
  subst heffs
  cases r with
  | ok b =>
    simp at he
    rcases he with h | h
    · exact ⟨_, h⟩
    · exact ⟨_, h⟩
  | failed m =>
    simp at he
    exact ⟨_, he⟩
  | crashed m =>
    simp at he
    exact ⟨_, he⟩

/-- Every effect of get_description is a git invocation. -/
theorem get_description_effs (env : Env) (d : Option Chars) :
    ∀ e ∈ (get_description env d).1, ∃ a, e = Eff.gitCmd a := by
  rcases d with _ | dd
  · intro e he
    simp only [get_description] at he
    exact get_description_computed_effs env e he
  · intro e he
    simp only [get_description] at he
    split at he
    · simp at he
    · exact get_description_computed_effs env e he

/-- Every effect of the remote wiring step is a git invocation. -/
theorem setup_remote_effs_gitCmd (env : Env) (url : Chars) :
    ∀ e ∈ setup_remote_effs env url, ∃ a, e = Eff.gitCmd a := by
  intro e he
  unfold setup_remote_effs at he
  split at he
  · simp at he
    rcases he with h | h | h
    · exact ⟨_, h⟩
    · exact ⟨_, h⟩
    · exact ⟨_, h⟩
  · simp at he
    rcases he with h | h
    · exact ⟨_, h⟩
    · exact ⟨_, h⟩

/-- push_to_remote performs exactly one git invocation. -/
theorem push_to_remote_effs (env : Env) (b : Chars) :
    (push_to_remote env b).1 = [Eff.gitCmd [lit "push", lit "-u", lit "origin", b]] := rfl

/-- Membership in an append splits pointwise for any effect property. -/
theorem append_all {P : Eff → Prop} (l1 l2 : List Eff)
    (h1 : ∀ e ∈ l1, P e) (h2 : ∀ e ∈ l2, P e) : ∀ e ∈ l1 ++ l2, P e := by
  intro e he
  rw [List.mem_append] at he
  rcases he with h | h
  · exact h1 e h
  · exact h2 e h

/-- Specialization of append_all to the no-network no-credential property. -/
theorem append_clean2 (l1 l2 : List Eff)
    (h1 : ∀ e ∈ l1, isHttp e = false ∧ isCred e = false)
    (h2 : ∀ e ∈ l2, isHttp e = false ∧ isCred e = false) :
    ∀ e ∈ l1 ++ l2, isHttp e = false ∧ isCred e = false := append_all l1 l2 h1 h2

/-- A list of non-shell effects filters to nothing under isShell. -/
theorem filter_isShell_of_clean (l : List Eff) (h : ∀ e ∈ l, isShell e = false) :
    l.filter isShell = [] := by
  rw [List.filter_eq_nil_iff]
  intro e he
  simp [h e he]

/-- C1 counterexample: for the explicit ssh URL site spec ssh://h/p/r the
resolved Target is of the explicit-URL kind, yet the run performs a
remote-shell invocation against the host (SSHService.create_repository is
called), refuting the claim that no provisioning call at all is made. -/
theorem mkgit_c1_explicit_url_counterexample :
    (from_args envSsh.frag argsSsh.site argsSsh.repo).2 = ConfigResult.ok cfgSsh ∧
    Eff.sshExec (lit "h") ∈ (runMain envSsh argsSsh).1 ∧
    (runMain envSsh argsSsh).2 = Outcome.ok (lit "ssh://h/p/r.git") := by
  refine ⟨by decide, by decide, by decide⟩

/-- C1 amended: for every run against an explicit-URL (ssh) Target with the
fork flag unset, no network request and no credential access occurs, and on
success the origin URL is reassembled directly from the Target host, parent
path and repository name, with exactly one remote-shell invocation (the
provisioning call) in the trace. -/
theorem mkgit_c1_explicit_url_provisions (env : Env) (a : Args) (es : List Eff) (cfg : RepositoryConfig)
    (hf : a.fork = false)
    (hcfg : from_args env.frag a.site a.repo = (es, ConfigResult.ok cfg))
    (ht : cfg.targetType = lit "ssh") :
    (∀ e ∈ (runMain env a).1, isHttp e = false ∧ isCred e = false) ∧
    (∀ u, (runMain env a).2 = Outcome.ok u →
      u = lit "ssh://" ++ cfg.targetHost ++ optStr cfg.parentPath ++ lit "/" ++
          optStr cfg.repoName ∧
      (∃ p r, cfg.parentPath = some p ∧ cfg.repoName = some r) ∧
      (runMain env a).1.filter isShell = [Eff.sshExec cfg.targetHost]) := by
  have hes : ∀ e ∈ es, ∃ n, e = Eff.fragRead n := by
    have h0 := from_args_effs env.frag a.site a.repo
    rw [hcfg] at h0
    exact h0
  have hesC : ∀ e ∈ es, isHttp e = false ∧ isCred e = false ∧ isShell e = false := by
    intro e he
    obtain ⟨n, rfl⟩ := hes e he
    exact ⟨rfl, rfl, rfl⟩
  by_cases hdir : env.gitDirOk = false
  · have hrm : runMain env a = ([], Outcome.failed (lit "not a git working directory")) := by
      unfold runMain
      rw [if_pos hdir]
    rw [hrm]
    constructor
    · intro e he
      simp at he
    · intro u hu
      simp at hu
  · rcases hgc : get_current_branch env with ⟨e2, br⟩
    have h2 : e2 = [Eff.gitCmd [lit "branch"]] := by
      have h0 := get_current_branch_effs env
      rw [hgc] at h0
      exact h0
    have h2C : ∀ e ∈ e2, isHttp e = false ∧ isCred e = false ∧ isShell e = false := by
      intro e he
      rw [h2] at he
      simp at he
      rw [he]
      exact ⟨rfl, rfl, rfl⟩
    rcases hgd : get_description env a.descr with ⟨e3, descr⟩
    have h3 : ∀ e ∈ e3, ∃ x, e = Eff.gitCmd x := by
      have h0 := get_description_effs env a.descr
      rw [hgd] at h0
      exact h0
    have h3C : ∀ e ∈ e3, isHttp e = false ∧ isCred e = false ∧ isShell e = false := by
      intro e he
      obtain ⟨x, rfl⟩ := h3 e he
      exact ⟨rfl, rfl, rfl⟩
    have hpre : ∀ e ∈ es ++ e2 ++ e3, isHttp e = false ∧ isCred e = false ∧ isShell e = false :=
      append_all _ _ (append_all _ _ hesC h2C) h3C
    have hpreC : ∀ e ∈ es ++ e2 ++ e3, isHttp e = false ∧ isCred e = false :=
      fun x hx => ⟨(hpre x hx).1, (hpre x hx).2.1⟩
    cases br with
    | failed m =>
      have hrm : runMain env a = (es ++ e2, Outcome.failed m) := by
        unfold runMain
        rw [if_neg hdir, hcfg, hgc]
      rw [hrm]
      constructor
      · exact append_clean2 _ _
          (fun x hx => ⟨(hesC x hx).1, (hesC x hx).2.1⟩)
          (fun x hx => ⟨(h2C x hx).1, (h2C x hx).2.1⟩)
      · intro u hu
        simp at hu
    | crashed m =>
      exact absurd (show (get_current_branch env).2 = Outcome.crashed m by rw [hgc])
        (get_current_branch_not_crashed env m)
    | ok branch =>
      have hvt : validTargetType cfg.targetType = true := by rw [ht]; rfl
      have dgh : ¬ (cfg.targetType = lit "github") := by rw [ht]; decide
      have dgl : ¬ (cfg.targetType = lit "gitlab") := by rw [ht]; decide
      cases hpp : cfg.parentPath with
      | none =>
        have hrm : runMain env a =
            (es ++ e2 ++ e3, Outcome.crashed (lit "SSH parent_path is required")) := by
          unfold runMain provisionCreate ssh_create_repository
          rw [if_neg hdir, hcfg, hgc, hgd]
          simp [hvt, hf, dgh, dgl, hpp]
        rw [hrm]
        exact ⟨hpreC, fun u hu => by simp at hu⟩
      | some p =>
        cases hrn : cfg.repoName with
        | none =>
          have hrm : runMain env a =
              (es ++ e2 ++ e3, Outcome.crashed (lit "SSH repo_name is required")) := by
            unfold runMain provisionCreate ssh_create_repository
            rw [if_neg hdir, hcfg, hgc, hgd]
            simp [hvt, hf, dgh, dgl, hpp, hrn]
          rw [hrm]
          exact ⟨hpreC, fun u hu => by simp at hu⟩
        | some r =>
          have h4C : ∀ e ∈ [Eff.sshExec cfg.targetHost],
              isHttp e = false ∧ isCred e = false := by
            intro e he
            simp at he
            rw [he]
            exact ⟨rfl, rfl⟩
          by_cases hhost : cfg.targetHost = []
          · have hrm : runMain env a =
                (es ++ e2 ++ e3, Outcome.failed (lit "SSH host is required")) := by
              unfold runMain provisionCreate ssh_create_repository
              rw [if_neg hdir, hcfg, hgc, hgd]
              simp [hvt, hf, dgh, dgl, hpp, hrn, hhost]
            rw [hrm]
            exact ⟨hpreC, fun u hu => by simp at hu⟩
          · by_cases hst : env.sshStatus = 0
            · have h5C : ∀ e ∈ setup_remote_effs env (ssh_get_repository_url cfg),
                  isHttp e = false ∧ isCred e = false ∧ isShell e = false := by
                intro e he
                obtain ⟨x, rfl⟩ := setup_remote_effs_gitCmd env (ssh_get_repository_url cfg) e he
                exact ⟨rfl, rfl, rfl⟩
              have h6C : ∀ e ∈ [Eff.gitCmd [lit "push", lit "-u", lit "origin", branch]],
                  isHttp e = false ∧ isCred e = false ∧ isShell e = false := by
                intro e he
                simp at he
                rw [he]
                exact ⟨rfl, rfl, rfl⟩
              have hbig : ∀ e ∈ es ++ e2 ++ e3 ++ [Eff.sshExec cfg.targetHost] ++
                  setup_remote_effs env (ssh_get_repository_url cfg) ++
                  [Eff.gitCmd [lit "push", lit "-u", lit "origin", branch]],
                  isHttp e = false ∧ isCred e = false := by
                refine append_clean2 _ _ (append_clean2 _ _ (append_clean2 _ _ hpreC h4C) ?_) ?_
                · exact fun x hx => ⟨(h5C x hx).1, (h5C x hx).2.1⟩
                · exact fun x hx => ⟨(h6C x hx).1, (h6C x hx).2.1⟩
              by_cases hpush :
                  (env.git [lit "push", lit "-u", lit "origin", branch]).1 = 0
              · have hrm : runMain env a =
                    (es ++ e2 ++ e3 ++ [Eff.sshExec cfg.targetHost] ++
                       setup_remote_effs env (ssh_get_repository_url cfg) ++
                       [Eff.gitCmd [lit "push", lit "-u", lit "origin", branch]],
                     Outcome.ok (ssh_get_repository_url cfg)) := by
                  unfold runMain provisionCreate ssh_create_repository mainFinish push_to_remote
                  rw [if_neg hdir, hcfg, hgc, hgd]
                  simp [hvt, hf, dgh, dgl, hpp, hrn, hhost, hst, hpush]
                rw [hrm]
                refine ⟨hbig, ?_⟩
                intro u hu
                have hu2 : u = ssh_get_repository_url cfg := by
                  simpa using hu.symm
                refine ⟨?_, ⟨p, r, rfl, rfl⟩, ?_⟩
                · rw [hu2]
                  simp [ssh_get_repository_url, hpp, hrn]
                · simp only [List.filter_append]
                  rw [filter_isShell_of_clean es (fun x hx => (hesC x hx).2.2),
                      filter_isShell_of_clean e2 (fun x hx => (h2C x hx).2.2),
                      filter_isShell_of_clean e3 (fun x hx => (h3C x hx).2.2),
                      filter_isShell_of_clean _ (fun x hx => (h5C x hx).2.2)]
                  simp [isShell]
              · have hrm : runMain env a =
                    (es ++ e2 ++ e3 ++ [Eff.sshExec cfg.targetHost] ++
                       setup_remote_effs env (ssh_get_repository_url cfg) ++
                       [Eff.gitCmd [lit "push", lit "-u", lit "origin", branch]],
                     Outcome.failed (lit "push to origin failed")) := by
                  unfold runMain provisionCreate ssh_create_repository mainFinish push_to_remote
                  rw [if_neg hdir, hcfg, hgc, hgd]
                  simp [hvt, hf, dgh, dgl, hpp, hrn, hhost, hst, hpush]
                rw [hrm]
                exact ⟨hbig, fun u hu => by simp at hu⟩
            · have hrm : runMain env a =
                  (es ++ e2 ++ e3 ++ [Eff.sshExec cfg.targetHost],
                   Outcome.failed (lit "SSH to host failed")) := by
                unfold runMain provisionCreate ssh_create_repository
                rw [if_neg hdir, hcfg, hgc, hgd]
                simp [hvt, hf, dgh, dgl, hpp, hrn, hhost, hst]
              rw [hrm]
              exact ⟨append_clean2 _ _ hpreC h4C, fun u hu => by simp at hu⟩

/-- C1 witness: the amended theorem instantiated at the explicit URL
ssh://h/p/r in a benign world. -/
theorem mkgit_c1_explicit_url_provisions_witness :
    (∀ e ∈ (runMain envSsh argsSsh).1, isHttp e = false ∧ isCred e = false) ∧
    (∀ u, (runMain envSsh argsSsh).2 = Outcome.ok u →
      u = lit "ssh://" ++ cfgSsh.targetHost ++ optStr cfgSsh.parentPath ++ lit "/" ++
          optStr cfgSsh.repoName ∧
      (∃ p r, cfgSsh.parentPath = some p ∧ cfgSsh.repoName = some r) ∧
      (runMain envSsh argsSsh).1.filter isShell = [Eff.sshExec cfgSsh.targetHost]) :=
  mkgit_c1_explicit_url_provisions envSsh argsSsh [] cfgSsh rfl (by decide) rfl

/-- C2: with site spec github-acme and the positional repository name widget
supplied, the resolved configuration leaves repo_name unset (the positional
argument is never consulted and no default is derived from the working
directory name), the name field sent to the creation API is the empty
string, and the registered origin URL renders the unset name as the Python
string None; the normalizer parse_repo_name would produce widget.git but is
dead code. -/
theorem mkgit_c2_repo_name_never_defaulted :
    parse_repo_name (some (lit "widget")) = some (lit "widget.git") ∧
    (from_args envHub.frag argsHub.site argsHub.repo).2 = ConfigResult.ok
      { targetType := lit "github", targetHost := lit "github.com" } ∧
    api_request_name { targetType := lit "github", targetHost := lit "github.com" } = [] ∧
    (runMain envHub argsHub).2 = Outcome.ok (lit "ssh://git@github.com/user/None") := by
  refine ⟨by decide, by decide, by decide, by decide⟩

/-- C3: the site spec github-acme parses with org unset (the code reads the
third regex capture group, which a single suffix segment never fills, so the
organization suffix is silently ignored), while bare github also yields org
unset; the claim expects org acme for the former. -/
theorem mkgit_c3_github_org_suffix_ignored :
    parse_site_arguments (some (lit "github-acme")) =
      SiteParse.service (lit "github") (lit "github.com") none ∧
    parse_site_arguments (some (lit "github")) =
      SiteParse.service (lit "github") (lit "github.com") none := by
  refine ⟨by decide, by decide⟩

/-- C4: the token github-a-b-c, which begins with a SaaS service name but
does not match the site-spec regex, falls through every branch onto the
trailing assert False instead of being looked up as a configuration
fragment: the parse crashes and so does from_args. -/
theorem mkgit_c4_saas_prefixed_token_crashes :
    parse_site_arguments (some (lit "github-a-b-c")) = SiteParse.crash (lit "github-a-b-c") ∧
    (from_args (fun _ => none) (some (lit "github-a-b-c")) none).2 =
      ConfigResult.crashed (lit "Unhandled site argument format") := by
  refine ⟨by decide, by decide⟩

/-- C5 counterexample: a fragment defining the unrecognized key FOO next to
GITHOST parses successfully into a configuration (the unknown key is
silently ignored), refuting the claim that an unrecognized key is a fatal
input error. -/
theorem mkgit_c5_unknown_key_accepted :
    (from_args (fun n => if n = lit "mysite" then some [lit "GITHOST=h", lit "FOO=bar"] else none)
      (some (lit "mysite")) none).2 =
      ConfigResult.ok { targetType := lit "custom", targetHost := lit "h",
                        parentPath := some [], repoLink := none } := by
  decide

/-- C5 amended: for every named-fragment site spec run in a valid working
copy, a fragment that cannot be located, or that omits or empties the
mandatory GITHOST key, is a fatal input error reported with the fragment
read as the only effect (before any network or credential access); a
fragment whose GITHOST is set yields a configured remote-shell target with
the parent path defaulting to empty and the symlink directory to absent;
unrecognized keys are ignored. -/
theorem mkgit_c5_fragment_errors (env : Env) (a : Args) (s : Chars)
    (hs : a.site = some s)
    (hne : s ≠ [])
    (h1 : startsWithChars s (lit "github") = false)
    (h2 : startsWithChars s (lit "gitlab") = false)
    (h3 : startsWithChars s (lit "ssh://") = false)
    (hdir : env.gitDirOk = true) :
    (env.frag s = none →
       runMain env a = ([Eff.fragRead s], Outcome.failed (lit "unknown site script"))) ∧
    (∀ lines, env.frag s = some lines →
       ((lookupVar (lit "GITHOST") (parseFragmentLines lines) = none ∨
         lookupVar (lit "GITHOST") (parseFragmentLines lines) = some []) →
          runMain env a =
            ([Eff.fragRead s], Outcome.failed (lit "site script must set GITHOST"))) ∧
       (∀ h, lookupVar (lit "GITHOST") (parseFragmentLines lines) = some h → h ≠ [] →
          (from_args env.frag a.site a.repo).2 = ConfigResult.ok
            { targetType := lit "custom", targetHost := h,
              parentPath := some ((lookupVar (lit "PARENT") (parseFragmentLines lines)).getD []),
              repoLink := lookupVar (lit "REPOLINK") (parseFragmentLines lines) })) := by
  have hps : parse_site_arguments (some s) = SiteParse.custom s := by
    simp [parse_site_arguments, hne, h1, h2, h3]
  have runfail : ∀ msg, from_args env.frag a.site a.repo =
      ([Eff.fragRead s], ConfigResult.failed msg) →
      runMain env a = ([Eff.fragRead s], Outcome.failed msg) := by
    intro msg hfa
    unfold runMain
    rw [hfa]
    simp [hdir]
  refine ⟨?_, ?_⟩
  · intro hfrag
    refine runfail _ ?_
    rw [hs]
    simp [from_args, hne, hps, hfrag, load_site_config]
  · intro lines hfrag
    refine ⟨?_, ?_⟩
    · intro hhost
      refine runfail _ ?_
      rw [hs]
      rcases hhost with hh | hh
      · simp [from_args, hne, hps, hfrag, load_site_config, hh]
      · simp [from_args, hne, hps, hfrag, load_site_config, hh]
    · intro h hh hne2
      rw [hs]
      simp [from_args, hne, hps, hfrag, load_site_config, hh, hne2]

/-- C5 witness: the amended theorem instantiated at the unlocatable fragment
site mysite in a benign world. -/
theorem mkgit_c5_fragment_errors_witness :
    (envSsh.frag (lit "mysite") = none →
       runMain envSsh argsNoFrag =
         ([Eff.fragRead (lit "mysite")], Outcome.failed (lit "unknown site script"))) ∧
    (∀ lines, envSsh.frag (lit "mysite") = some lines →
       ((lookupVar (lit "GITHOST") (parseFragmentLines lines) = none ∨
         lookupVar (lit "GITHOST") (parseFragmentLines lines) = some []) →
          runMain envSsh argsNoFrag =
            ([Eff.fragRead (lit "mysite")],
             Outcome.failed (lit "site script must set GITHOST"))) ∧
       (∀ h, lookupVar (lit "GITHOST") (parseFragmentLines lines) = some h → h ≠ [] →
          (from_args envSsh.frag argsNoFrag.site argsNoFrag.repo).2 = ConfigResult.ok
            { targetType := lit "custom", targetHost := h,
              parentPath := some ((lookupVar (lit "PARENT") (parseFragmentLines lines)).getD []),
              repoLink := lookupVar (lit "REPOLINK") (parseFragmentLines lines) })) :=
  mkgit_c5_fragment_errors envSsh argsNoFrag (lit "mysite") rfl (by decide) (by decide)
    (by decide) (by decide) rfl

/-- C6 counterexample: building an URL from host h, parent path /p and
repository name v1.0 (a name containing a dot but not ending in .git) and
feeding it back to the parser does not return the components: the parse
fails, refuting the claim for every repository name. -/
theorem mkgit_c6_dotted_name_counterexample :
    parse_ssh_url (lit "ssh://" ++ lit "h" ++ lit "/p" ++ lit "/" ++ lit "v1.0") = none := by
  decide

/-- C6 amended: explicit-URL parsing is a left inverse of URL construction
for every slash-free host, parent path starting with a slash, and slash-free
repository name that either already ends in .git or contains no dot: parsing
the built URL returns the same host and parent path and the name with .git
appended when absent. -/
theorem mkgit_c6_left_inverse (host parent repo : Chars)
    (hh : host.contains '/' = false)
    (hp : startsWithChars parent (lit "/") = true)
    (hr : repo.contains '/' = false)
    (hd : endsWithChars repo (lit ".git") = true ∨ repo.contains '.' = false) :
    parse_ssh_url (lit "ssh://" ++ host ++ parent ++ lit "/" ++ repo) =
      some (host, parent,
        if endsWithChars repo (lit ".git") = true then repo else repo ++ lit ".git") := by
  obtain ⟨pt, rfl⟩ : ∃ pt, parent = '/' :: pt := by
    have hp2 := of_decide_eq_true hp
    rw [show lit "/" = ['/'] from rfl] at hp2
    cases parent with
    | nil => simp at hp2
    | cons c pt =>
      simp [List.take] at hp2
      exact ⟨pt, by rw [hp2]⟩
  have hmem : ∀ x ∈ host, (x != '/') = true := by
    intro x hx
    have hnm := contains_false_not_mem hh
    have hxne : x ≠ '/' := fun hq => hnm (hq ▸ hx)
    simpa [bne_iff_ne] using hxne
  have hrep : ∀ c ∈ repo, c ≠ '/' := by
    intro c hc
    have hnm := contains_false_not_mem hr
    exact fun hq => hnm (hq ▸ hc)
  have hurl : lit "ssh://" ++ host ++ ('/' :: pt) ++ lit "/" ++ repo
      = lit "ssh://" ++ (host ++ '/' :: (pt ++ '/' :: repo)) := by
    simp [show lit "/" = ['/'] from rfl]
  rw [hurl]
  have hlen : (lit "ssh://").length = 6 := rfl
  have htake : (lit "ssh://" ++ (host ++ '/' :: (pt ++ '/' :: repo))).take 6 = lit "ssh://" := by
    have h0 := List.take_left (lit "ssh://") (host ++ '/' :: (pt ++ '/' :: repo))
    rwa [hlen] at h0
  have hdrop : (lit "ssh://" ++ (host ++ '/' :: (pt ++ '/' :: repo))).drop 6
      = host ++ '/' :: (pt ++ '/' :: repo) := by
    have h0 := List.drop_left (lit "ssh://") (host ++ '/' :: (pt ++ '/' :: repo))
    rwa [hlen] at h0
  have htw := takeWhile_append_cons (fun c => c != '/') host (pt ++ '/' :: repo) '/'
    hmem (by decide)
  have hsplit : splitLastSlash ('/' :: (pt ++ '/' :: repo)) = some ('/' :: pt, repo) := by
    simpa using splitLastSlash_append ('/' :: pt) repo hrep
  rcases hd with hend | hdot
  · simp [parse_ssh_url, htake, hdrop, htw.1, htw.2, hsplit, hend]
  · have hend : endsWithChars repo (lit ".git") = false := by
      cases hE : endsWithChars repo (lit ".git") with
      | true => rw [endsWith_dotgit_contains_dot hE] at hdot; cases hdot
      | false => rfl
    simp [parse_ssh_url, htake, hdrop, htw.1, htw.2, hsplit, hend, hdot]
    exact contains_false_not_mem hdot

/-- C6 witness: the amended left-inverse theorem instantiated at host
host.example, parent /group and name proj. -/
theorem mkgit_c6_left_inverse_witness :
    ((lit "host.example").contains '/' = false ∧
     startsWithChars (lit "/group") (lit "/") = true ∧
     (lit "proj").contains '/' = false ∧
     (endsWithChars (lit "proj") (lit ".git") = true ∨ (lit "proj").contains '.' = false)) ∧
    parse_ssh_url (lit "ssh://" ++ lit "host.example" ++ lit "/group" ++ lit "/" ++ lit "proj") =
      some (lit "host.example", lit "/group",
        if endsWithChars (lit "proj") (lit ".git") = true then lit "proj"
        else lit "proj" ++ lit ".git") :=
  ⟨⟨by decide, by decide, by decide, by decide⟩,
   mkgit_c6_left_inverse (lit "host.example") (lit "/group") (lit "proj")
     (by decide) (by decide) (by decide) (by decide)⟩

/-- C7: the four GitLab site-spec forms parse as specified: bare gitlab
gives the default host and no org, a dot-free suffix is an org under the
default host, a dotted suffix is a host with no org, and two suffix
segments are host then org. -/
theorem mkgit_c7_gitlab_spec_parsing :
    parse_site_arguments (some (lit "gitlab")) =
      SiteParse.service (lit "gitlab") (lit "gitlab.com") none ∧
    parse_site_arguments (some (lit "gitlab-org")) =
      SiteParse.service (lit "gitlab") (lit "gitlab.com") (some (lit "org")) ∧
    parse_site_arguments (some (lit "gitlab-host.with.dot")) =
      SiteParse.service (lit "gitlab") (lit "host.with.dot") none ∧
    parse_site_arguments (some (lit "gitlab-host.with.dot-org")) =
      SiteParse.service (lit "gitlab") (lit "host.with.dot") (some (lit "org")) := by
  refine ⟨by decide, by decide, by decide, by decide⟩

/-- C8: for every invocation with the fork flag set whose resolved target is
not GitHub, the run ends in a fail call and its whole effect trace contains
no network request and no remote-shell invocation. -/
theorem mkgit_c8_fork_non_github_fatal (env : Env) (a : Args) (es : List Eff) (cfg : RepositoryConfig)
    (hf : a.fork = true)
    (hcfg : from_args env.frag a.site a.repo = (es, ConfigResult.ok cfg))
    (hng : cfg.targetType ≠ lit "github") :
    (∃ m, (runMain env a).2 = Outcome.failed m) ∧
    (∀ e ∈ (runMain env a).1, isNetOrShell e = false) := by
  have hes : ∀ e ∈ es, ∃ n, e = Eff.fragRead n := by
    have h0 := from_args_effs env.frag a.site a.repo
    rw [hcfg] at h0
    exact h0
  by_cases hdir : env.gitDirOk = false
  · have hrm : runMain env a = ([], Outcome.failed (lit "not a git working directory")) := by
      unfold runMain
      rw [if_pos hdir]
    rw [hrm]
    simp
  · rcases hgc : get_current_branch env with ⟨e2, br⟩
    have h2 : e2 = [Eff.gitCmd [lit "branch"]] := by
      have h0 := get_current_branch_effs env
      rw [hgc] at h0
      exact h0
    rcases hgd : get_description env a.descr with ⟨e3, descr⟩
    have h3 : ∀ e ∈ e3, ∃ x, e = Eff.gitCmd x := by
      have h0 := get_description_effs env a.descr
      rw [hgd] at h0
      exact h0
    have hclean : ∀ e ∈ es ++ e2 ++ e3, isNetOrShell e = false := by
      intro e he
      simp at he
      rcases he with h | h | h
      · obtain ⟨n, rfl⟩ := hes e h
        rfl
      · rw [h2] at h
        simp at h
        rw [h]
        rfl
      · obtain ⟨x, rfl⟩ := h3 e h
        rfl
    have hclean2 : ∀ e ∈ es ++ e2, isNetOrShell e = false := by
      intro e he
      refine hclean e ?_
      rw [List.mem_append] at he
      rw [List.mem_append, List.mem_append]
      rcases he with h | h
      · exact Or.inl (Or.inl h)
      · exact Or.inl (Or.inr h)
    cases br with
    | failed m =>
      have hrm : runMain env a = (es ++ e2, Outcome.failed m) := by
        unfold runMain
        rw [if_neg hdir, hcfg, hgc]
      rw [hrm]
      exact ⟨⟨m, rfl⟩, hclean2⟩
    | crashed m =>
      exact absurd (show (get_current_branch env).2 = Outcome.crashed m by rw [hgc])
        (get_current_branch_not_crashed env m)
    | ok branch =>
      cases hvt : validTargetType cfg.targetType with
      | false =>
        have hrm : runMain env a =
            (es ++ e2 ++ e3, Outcome.failed (lit "unknown target type")) := by
          unfold runMain
          rw [if_neg hdir, hcfg, hgc, hgd]
          simp [hvt]
        rw [hrm]
        exact ⟨⟨_, rfl⟩, hclean⟩
      | true =>
        have hrm : runMain env a =
            (es ++ e2 ++ e3, Outcome.failed (lit "forking only supported for GitHub")) := by
          unfold runMain
          rw [if_neg hdir, hcfg, hgc, hgd]
          simp [hvt, hf, hng]
        rw [hrm]
        exact ⟨⟨_, rfl⟩, hclean⟩

/-- C8 witness: the theorem instantiated at a GitLab fork request in a
benign world. -/
theorem mkgit_c8_fork_non_github_fatal_witness :
    (∃ m, (runMain envSsh argsLabFork).2 = Outcome.failed m) ∧
    (∀ e ∈ (runMain envSsh argsLabFork).1, isNetOrShell e = false) :=
  mkgit_c8_fork_non_github_fatal envSsh argsLabFork [] cfgLab rfl (by decide) (by decide)

/-- C9: the remote wiring step is idempotent with respect to the origin
remote: from any initial remote table, setup_remote leaves exactly one
origin entry and it carries the newly resolved URL (covering in particular
a second run against the table produced by a first run). -/
theorem mkgit_c9_setup_remote_idempotent (rs : RemoteTable) (url : Chars) :
    (setup_remote url rs).filter (fun pr => pr.1 == lit "origin") = [(lit "origin", url)] := by
  unfold setup_remote git_remote_add git_remote_rm git_remote_get_url
  cases hfind : rs.find? (fun pr => pr.1 == lit "origin") with
  | none =>
    have hnil : rs.filter (fun pr => pr.1 == lit "origin") = [] := by
      rw [List.filter_eq_nil_iff]
      intro pr hm
      exact List.find?_eq_none.mp hfind pr hm
    simp [List.filter_append, hnil]
  | some v =>
    have hnil : (rs.filter (fun pr => !(pr.1 == lit "origin"))).filter
        (fun pr => pr.1 == lit "origin") = [] := by
      rw [List.filter_eq_nil_iff]
      intro pr hm
      have h0 := List.of_mem_filter hm
      simp at h0 ⊢
      exact h0
    simp [List.filter_append, hnil]

/-- C10: a configured remote-shell target (fragment site mysite with GITHOST
set) reaches SSHService.create_repository with repo_name still unset, so the
entry assertion on repo_name fires and the run ends in an AssertionError
rather than completing or failing cleanly, refuting the claim that the two
entry assertions never fire for reachable invocations. -/
theorem mkgit_c10_custom_target_assertion_fires :
    (from_args envCustom.frag argsCustom.site argsCustom.repo).2 = ConfigResult.ok
      { targetType := lit "custom", targetHost := lit "h.example",
        parentPath := some [], repoName := none } ∧
    (runMain envCustom argsCustom).2 = Outcome.crashed (lit "SSH repo_name is required") := by
  refine ⟨by decide, by decide⟩
